import Mathlib

/-!
Verification of the pronoun mismatch detection and correction engine.

The TypeScript sources are embedded shallowly:
* `AutoCorrect` models `src/pronounAutoCorrect.ts` (detection keyed to a
  mention-proximity window, best-correction lookup, case-preserving rewrite,
  pronoun resolution with a TTL cache).
* `Contextual` models the contextual-parser variant (`parseContextualPronouns`,
  `calculateContextConfidence`, `shouldCorrect`, `getPronounSet`).
* `Tracker` models the `DuplicateTracker` class from `src/index.ts`.

JavaScript strings are modelled as `List Char` (the inputs of interest are
ASCII, so UTF-16 code units coincide with characters), numbers as `ℚ` (with
`Int` where the code produces integers), and the regular expressions actually
occurring in the sources as explicit word-alternation matchers.  Regexes kept
in module-level constants carry their `lastIndex` register, which is threaded
explicitly as state.
-/

/-- Character class `\w` of JavaScript regexes: ASCII letters, digits, underscore. -/
def isWordCharJs (c : Char) : Bool :=
  ('a' ≤ c && c ≤ 'z') || ('A' ≤ c && c ≤ 'Z') || ('0' ≤ c && c ≤ '9') || c = '_'

/-- Character class `\s` restricted to the ASCII whitespace JavaScript recognises. -/
def jsWhitespace (c : Char) : Bool :=
  c = ' ' || c = '\t' || c = '\n' || c = '\r' || c = Char.ofNat 11 || c = Char.ofNat 12

/-- Model of `String.prototype.slice(a, b)` for non-negative arguments: clamps
both indices to the string length and returns the empty list when `a ≥ b`. -/
def jsSlice (t : List Char) (a b : Nat) : List Char :=
  (t.take b).drop a

/-- Model of `String.prototype.toLowerCase` on ASCII text. -/
def strLower (s : String) : String := String.mk (s.data.map Char.toLower)

/-- Model of `String.prototype.toUpperCase` on ASCII text. -/
def strUpper (s : String) : String := String.mk (s.data.map Char.toUpper)

/-- Model of `String.prototype.trim`. -/
def strTrim (s : String) : String :=
  String.mk (((s.data.dropWhile jsWhitespace).reverse.dropWhile jsWhitespace).reverse)

/-- Model of `Math.round`: round half towards positive infinity. -/
def jsRound (q : ℚ) : Int := Int.floor (q + 1/2)

/-- Absolute difference of two natural positions, as in `Math.abs(a - b)`. -/
def natDist (a b : Nat) : Nat := max a b - min a b

/-- There is no word character at offset `i` (offsets past the end also qualify).
Used for the `\b` assertions, whose neighbouring pattern characters are always
word characters in the regexes of this code base. -/
def noWordCharAt (t : List Char) (i : Nat) : Bool :=
  match t.get? i with
  | some c => !(isWordCharJs c)
  | none => true

/-- Word boundary to the left of offset `i` (the pattern continues with a word
character there). -/
def boundaryBefore (t : List Char) (i : Nat) : Bool :=
  i = 0 || noWordCharAt t (i - 1)

/-- A word-alternation regular expression as they occur in the sources: an
ordered list of literal alternatives, a case-insensitivity flag, and optional
`\b` assertions on the left and right of the alternation. -/
structure RePat where
  alts : List (List Char)
  ci : Bool
  wbL : Bool
  wbR : Bool

/-- Case normalisation used when matching a case-insensitive pattern. -/
def normChar (ci : Bool) (c : Char) : Char := if ci then c.toLower else c

/-- The literal word `w` (stored lower-case for case-insensitive patterns)
matches the text at offset `i`. -/
def literalAt (ci : Bool) (w : List Char) (t : List Char) (i : Nat) : Bool :=
  decide (i + w.length ≤ t.length) && (jsSlice t i (i + w.length)).map (normChar ci) = w

/-- First alternative of `p` matching at offset `i`, returning the match length.
Alternatives are tried in order, which reproduces the regex engine's ordered
alternation (optional-suffix forms such as `hers?` are listed long-form first,
reproducing greediness). -/
def altMatchAt (p : RePat) (t : List Char) (i : Nat) : Option Nat :=
  p.alts.findSome? fun w =>
    if (!p.wbL || boundaryBefore t i)
        && literalAt p.ci w t i
        && (!p.wbR || noWordCharAt t (i + w.length)) then
      some w.length
    else none

/-- Leftmost match of `p` starting at offset `start` or later: the pair of its
start offset and length.  Models one `exec` step of a regex whose `lastIndex`
is `start`. -/
def findFrom (p : RePat) (t : List Char) (start : Nat) : Option (Nat × Nat) :=
  ((List.range (t.length + 1)).filterMap fun i =>
    if start ≤ i then (altMatchAt p t i).map fun len => (i, len) else none).head?

/-- Repeated `exec` of a global regex from offset `start`, collecting all
matches.  The fuel is one more than the text length, which is sufficient since
every alternative in this code base is non-empty. -/
def allMatchesFrom (p : RePat) (t : List Char) : Nat → Nat → List (Nat × Nat)
  | 0, _ => []
  | fuel + 1, start =>
    match findFrom p t start with
    | none => []
    | some il => il :: allMatchesFrom p t fuel (il.1 + il.2)

/-- All matches of a (fresh) global regex over `t`, in order of position. -/
def allMatches (p : RePat) (t : List Char) : List (Nat × Nat) :=
  allMatchesFrom p t (t.length + 1) 0

/-- Replace or append a key's binding in an association list, modelling
`Map.prototype.set` (insertion order preserved). -/
def setAssoc {α : Type} : List (String × α) → String → α → List (String × α)
  | [], k, v => [(k, v)]
  | (k', v') :: rest, k, v =>
    if k' = k then (k, v) :: rest else (k', v') :: setAssoc rest k v

/-- Model of `[...new Set(list)]`: deduplicate keeping first occurrences. -/
def dedupFirst : List String → List String
  | [] => []
  | x :: xs => x :: dedupFirst (xs.filter fun y => y ≠ x)
termination_by l => l.length
decreasing_by
  simp only [List.length_cons]
  exact Nat.lt_succ_of_le (List.length_filter_le _ _)

/-- The backtick character (code point 96). -/
def backtickChar : Char := Char.ofNat 96

/-- Leftmost occurrence of the literal `needle` at offset `start` or later. -/
def findLit (needle : List Char) (t : List Char) (start : Nat) : Option Nat :=
  ((List.range (t.length + 1)).filterMap fun i =>
    if start ≤ i then (if literalAt false needle t i then some i else none) else none).head?

/-- Model of `text.replace(/```[\s\S]*?```/g, "")`: a lazy fenced-code region
runs from one triple backtick to the next. -/
def stripCodeFences : Nat → List Char → List Char
  | 0, _ => []
  | _, [] => []
  | fuel + 1, c :: rest =>
    if literalAt false [backtickChar, backtickChar, backtickChar] (c :: rest) 0 then
      match findLit [backtickChar, backtickChar, backtickChar] (c :: rest) 3 with
      | some j => stripCodeFences fuel ((c :: rest).drop (j + 3))
      | none => c :: stripCodeFences fuel rest
    else c :: stripCodeFences fuel rest

/-- Model of inline-code removal, `text.replace(/`[^`]+`/g, "")`. -/
def stripInlineCode : Nat → List Char → List Char
  | 0, _ => []
  | _, [] => []
  | fuel + 1, c :: rest =>
    if c = backtickChar then
      let k := (rest.takeWhile fun d => d ≠ backtickChar).length
      if 1 ≤ k && rest.get? k = some backtickChar then
        stripInlineCode fuel (rest.drop (k + 1))
      else c :: stripInlineCode fuel rest
    else c :: stripInlineCode fuel rest

/-- Model of quote-line removal, `text.replace(/>[^\n]+/gm, "")`: a greater-than
sign and everything up to the next newline (at least one character). -/
def stripQuoteLines : Nat → List Char → List Char
  | 0, _ => []
  | _, [] => []
  | fuel + 1, c :: rest =>
    if c = '>' then
      let k := (rest.takeWhile fun d => d ≠ '\n').length
      if 1 ≤ k then stripQuoteLines fuel (rest.drop k)
      else c :: stripQuoteLines fuel rest
    else c :: stripQuoteLines fuel rest

/-- The three region-stripping replacements applied in source order. -/
def stripIgnorable (t : List Char) : List Char :=
  let a := stripCodeFences (t.length + 1) t
  let b := stripInlineCode (a.length + 1) a
  stripQuoteLines (b.length + 1) b

/-- A capture of the mention regex `<@!?(\d+)>` starting exactly at offset `i`:
the digit string and the offset one past the match. -/
def mentionMatchAt (t : List Char) (i : Nat) : Option (String × Nat) :=
  if t.get? i = some '<' && t.get? (i + 1) = some '@' then
    let j := if t.get? (i + 2) = some '!' then i + 3 else i + 2
    let ds := (jsSlice t j t.length).takeWhile Char.isDigit
    if 1 ≤ ds.length && t.get? (j + ds.length) = some '>' then
      some (String.mk ds, j + ds.length + 1)
    else none
  else none

/-- All captures of `<@!?(\d+)>` in order, before deduplication. -/
def extractMentionsAux (t : List Char) : Nat → Nat → List String
  | 0, _ => []
  | fuel + 1, start =>
    match ((List.range (t.length + 1)).filterMap fun i =>
        if start ≤ i then (mentionMatchAt t i).map fun r => (i, r) else none).head? with
    | none => []
    | some ir => ir.2.1 :: extractMentionsAux t fuel ir.2.2

/-- Model of `extractMentions` (identical in both source variants): all
mentioned user ids, deduplicated in first-seen order. -/
def extractMentions (text : String) : List String :=
  dedupFirst (extractMentionsAux text.data (text.data.length + 1) 0)

/-- Separator class of the label-splitting regex `[\/,\s]+`. -/
def isSepChar (c : Char) : Bool := c = '/' || c = ',' || jsWhitespace c

/-- Cut a character list at separator characters (single-character cuts; the
caller filters out the empty pieces, which makes this agree with splitting on
`[\/,\s]+`, where separator runs act as one cut). -/
def splitSepAux : List Char → List Char → List (List Char)
  | [], acc => [acc.reverse]
  | c :: rest, acc =>
    if isSepChar c then acc.reverse :: splitSepAux rest []
    else splitSepAux rest (c :: acc)

/-- Model of `normalized.split(/[\/,\s]+/)`, up to empty pieces. -/
def splitSep (s : List Char) : List String := (splitSepAux s []).map String.mk

namespace AutoCorrect

/-- One pronoun set of `PRONOUN_SETS` in `pronounAutoCorrect.ts`, with its five
grammatical role fields in declaration order. -/
structure PronounSet where
  subject : List String
  object : List String
  possessive : List String
  possessiveObject : List String
  reflexive : List String
deriving DecidableEq

/-- The `PRONOUN_SETS` table of `pronounAutoCorrect.ts`. -/
def PRONOUN_SETS : List (String × PronounSet) :=
  [("he/him", ⟨["he"], ["him"], ["his"], ["his"], ["himself"]⟩),
   ("she/her", ⟨["she"], ["her"], ["her"], ["hers"], ["herself"]⟩),
   ("they/them", ⟨["they"], ["them"], ["their"], ["theirs"], ["themselves", "themself"]⟩),
   ("it/its", ⟨["it"], ["it"], ["its"], ["its"], ["itself"]⟩)]

/-- `Object.entries` of a pronoun set: role names with their word lists, in
property declaration order. -/
def roleGetters : List (String × (PronounSet → List String)) :=
  [("subject", PronounSet.subject), ("object", PronounSet.object),
   ("possessive", PronounSet.possessive), ("possessiveObject", PronounSet.possessiveObject),
   ("reflexive", PronounSet.reflexive)]

/-- The `typeMapping` table of `findBestCorrection`. -/
def typeMapping : List (String × String) :=
  [("he", "subject"), ("she", "subject"), ("they", "subject"), ("it", "subject"),
   ("him", "object"), ("her", "object"), ("them", "object"),
   ("his", "possessive"), ("hers", "possessiveObject"), ("theirs", "possessiveObject"),
   ("its", "possessive"),
   ("himself", "reflexive"), ("herself", "reflexive"), ("themselves", "reflexive"),
   ("themself", "reflexive"), ("itself", "reflexive")]

/-- Index a pronoun set by role name, as `correctSet[type]` does. -/
def roleList (s : PronounSet) (role : String) : List String :=
  if role = "subject" then s.subject
  else if role = "object" then s.object
  else if role = "possessive" then s.possessive
  else if role = "possessiveObject" then s.possessiveObject
  else if role = "reflexive" then s.reflexive
  else []

/-- Model of `findBestCorrection`: map the wrong pronoun to its grammatical
role and return the first word of that role in the expected set, falling back
to the subject pronoun and then to the wrong pronoun itself. -/
def findBestCorrection (wrongPronoun : String) (correctSet : PronounSet) : String :=
  let wrong := strLower wrongPronoun
  match typeMapping.lookup wrong with
  | some role =>
    match (roleList correctSet role).head? with
    | some w => w
    | none =>
      match correctSet.subject.head? with
      | some w => if w = "" then wrongPronoun else w
      | none => wrongPronoun
  | none =>
    match correctSet.subject.head? with
    | some w => if w = "" then wrongPronoun else w
    | none => wrongPronoun

/-- The `PronounMismatch` record of `pronounAutoCorrect.ts`. -/
structure PronounMismatch where
  wrongPronoun : String
  correctPronoun : String
  position : Nat
  context : String
  confidence : Int
deriving DecidableEq

/-- The `DetectionOptions` record; absent fields model `undefined`. -/
structure DetectionOptions where
  skipQuotedText : Bool := false
  confidenceThreshold : Option ℚ := none

/-- The threshold actually used, `options.confidenceThreshold || 70`
(`undefined` and the falsy value `0` both yield the default 70). -/
def thresholdOf (o : DetectionOptions) : ℚ :=
  match o.confidenceThreshold with
  | some q => if q = 0 then 70 else q
  | none => 70

/-- The mention regex `<@!?userId>` for a fixed user id (the optional bang is
tried first, reproducing greediness). -/
def mentionPat (userId : String) : RePat :=
  { alts := [("<@!" ++ userId ++ ">").data, ("<@" ++ userId ++ ">").data],
    ci := false, wbL := false, wbR := false }

/-- The referential-verb regex `\b(is|was|will|can|should|would|has|had|goes|went|says|said)\b`. -/
def verbPat : RePat :=
  { alts := ["is", "was", "will", "can", "should", "would", "has", "had",
             "goes", "went", "says", "said"].map String.data,
    ci := true, wbL := true, wbR := true }

/-- The score of one candidate occurrence in `detectPronounMismatches`:
`Math.max(60, 100 - distance/10)`, plus 15 when the surrounding text contains
a verb of the referential list. -/
def candidateConfidence (distanceFromMention : Nat) (surroundingText : List Char) : ℚ :=
  let conf0 : ℚ := max 60 (100 - (distanceFromMention : ℚ) / 10)
  if (findFrom verbPat surroundingText 0).isSome then conf0 + 15 else conf0

/-- The per-match body of the innermost `while` loop of
`detectPronounMismatches`: score one candidate occurrence by its distance to
the mention (plus the referential-verb bonus) and keep it when the threshold
is met. -/
def detectCandidate (options : DetectionOptions) (correctSet : PronounSet)
    (contextArea : List Char) (searchStart mentionPos : Nat) (im : Nat × Nat) :
    Option PronounMismatch :=
  let idx := im.1
  let len := im.2
  let wrongPronoun := String.mk ((jsSlice contextArea idx (idx + len)).map Char.toLower)
  let absolutePosition := searchStart + idx
  let distanceFromMention := natDist absolutePosition mentionPos
  let surroundingText :=
    jsSlice contextArea (idx - 20) (min contextArea.length (idx + len + 20))
  let confidence := candidateConfidence distanceFromMention surroundingText
  if thresholdOf options ≤ confidence then
    some { wrongPronoun := wrongPronoun,
           correctPronoun := findBestCorrection wrongPronoun correctSet,
           position := absolutePosition,
           context := String.mk surroundingText,
           confidence := jsRound confidence }
  else none

/-- The per-role body of `detectPronounMismatches`: collect the pronoun words
of this grammatical role across all sets that are not in the expected set,
and score every occurrence of them in the context area. -/
def detectRole (options : DetectionOptions) (correctSet : PronounSet)
    (contextArea : List Char) (searchStart mentionPos : Nat)
    (rg : String × (PronounSet → List String)) : List PronounMismatch :=
  let correctOptions := rg.2 correctSet
  let allPronounsOfType :=
    ((PRONOUN_SETS.map fun kv => rg.2 kv.2).flatten).filter fun p =>
      !(correctOptions.contains (strLower p))
  if allPronounsOfType.isEmpty then []
  else
    let pat : RePat :=
      { alts := allPronounsOfType.map String.data, ci := true, wbL := true, wbR := true }
    (allMatches pat contextArea).filterMap
      (detectCandidate options correctSet contextArea searchStart mentionPos)

/-- The per-mention body of `detectPronounMismatches`: carve out the
`-100/+300` character search window around the mention and run every
grammatical role over it. -/
def detectMention (options : DetectionOptions) (correctSet : PronounSet)
    (processed : List Char) (m : Nat × Nat) : List PronounMismatch :=
  let mentionPos := m.1
  let searchStart := mentionPos - 100
  let searchEnd := min processed.length (mentionPos + 300)
  let contextArea := jsSlice processed searchStart searchEnd
  roleGetters.flatMap (detectRole options correctSet contextArea searchStart mentionPos)

/-- Model of `detectPronounMismatches`: for every mention of `userId`, scan a
`-100/+300` character window for pronoun words that do not belong to the
expected set, score them by proximity (plus a referential-verb bonus), and keep
those at or above the confidence threshold. -/
def detectPronounMismatches (content userId correctPronouns : String)
    (options : DetectionOptions) : List PronounMismatch :=
  if correctPronouns = "unspecified" ∨ correctPronouns = "any pronouns" then []
  else
    let processed :=
      if options.skipQuotedText then stripIgnorable content.data else content.data
    match PRONOUN_SETS.lookup (strLower correctPronouns) with
    | none => []
    | some correctSet =>
      (allMatches (mentionPat userId) processed).flatMap
        (detectMention options correctSet processed)

/-- First character is its own upper-casing, as `original[0] === original[0].toUpperCase()`
tests.  The empty case is unreachable at the call site (caught by the all-caps branch). -/
def firstCharUpper (s : String) : Bool :=
  match s.data with
  | [] => false
  | c :: _ => c = Char.toUpper c

/-- Title-casing used by `preserveCase`: first character upper, rest lower. -/
def titleCase (s : String) : String :=
  match s.data with
  | [] => ""
  | c :: cs => String.mk (Char.toUpper c :: cs.map Char.toLower)

/-- Model of `preserveCase`. -/
def preserveCase (original replacement : String) : String :=
  if original = strUpper original then strUpper replacement
  else if firstCharUpper original then titleCase replacement
  else strLower replacement

/-- One applied edit as reported in `CorrectionResult.correctedWords`. -/
structure CorrectedWord where
  original : String
  corrected : String
  position : Nat
deriving DecidableEq

/-- The `CorrectionResult` record of `pronounAutoCorrect.ts`. -/
structure CorrectionResult where
  correctedText : String
  correctedWords : List CorrectedWord
deriving DecidableEq

/-- Model of `/\W/.test(ch)` where `ch` may be `undefined` (an out-of-range
index): `undefined` is coerced to the all-word-character string `"undefined"`,
so the test is false. -/
def jsNonWordTest (c : Option Char) : Bool :=
  match c with
  | some c => !(isWordCharJs c)
  | none => false

/-- Insert a mismatch into a descending-by-position list, before the first
entry of equal or smaller position (so the overall sort is stable). -/
def insertByPosDesc (m : PronounMismatch) : List PronounMismatch → List PronounMismatch
  | [] => [m]
  | x :: xs => if x.position ≤ m.position then m :: x :: xs else x :: insertByPosDesc m xs

/-- Stable descending sort by position, the effect of
`mismatches.sort((a, b) => b.position - a.position)` (V8's sort is stable). -/
def sortByPosDesc : List PronounMismatch → List PronounMismatch
  | [] => []
  | x :: xs => insertByPosDesc x (sortByPosDesc xs)

/-- One iteration of the replacement loop of `correctPronouns`: validate the
span against the original text, then splice the case-preserved replacement into
the accumulated text. -/
def applyMismatch (content : List Char) (st : List Char × List CorrectedWord)
    (m : PronounMismatch) : List Char × List CorrectedWord :=
  let position := m.position
  let wlen := m.wrongPronoun.data.length
  let beforeChar : Option Char := if 0 < position then content.get? (position - 1) else some ' '
  let afterChar : Option Char :=
    if position + wlen < content.length then content.get? (position + wlen) else some ' '
  if jsNonWordTest beforeChar && jsNonWordTest afterChar then
    let originalCase := String.mk (jsSlice content position (position + wlen))
    let correctedPronoun := preserveCase originalCase m.correctPronoun
    let newText :=
      jsSlice st.1 0 position ++ correctedPronoun.data ++ st.1.drop (position + wlen)
    (newText, st.2 ++ [⟨originalCase, correctedPronoun, position⟩])
  else st

/-- Model of `correctPronouns`.  The call `correction.mismatches.sort(...)`
sorts the caller's array in place, so the function returns, next to the
`CorrectionResult`, the list the caller's array holds after the call. -/
def correctPronouns (content : String) (mismatches : List PronounMismatch) :
    CorrectionResult × List PronounMismatch :=
  let sortedMismatches := sortByPosDesc mismatches
  let final := sortedMismatches.foldl (applyMismatch content.data) (content.data, [])
  ({ correctedText := String.mk final.1, correctedWords := final.2 }, sortedMismatches)

end AutoCorrect

namespace AutoCorrect

/-- The `PronounSource` enumeration (identical in both source variants). -/
inductive PronounSource
  | pronoundb
  | discordBio
  | custom
deriving DecidableEq

/-- One entry of the module-level pronoun cache (the contextual variant also
stores the source; that field plays no role in the properties proved here). -/
structure CacheEntry where
  pronouns : String
  timestamp : Int
deriving DecidableEq

/-- The module-level pronoun cache, a map from user id to entry. -/
abbrev PronounCache := List (String × CacheEntry)

/-- Cache time-to-live, five minutes in milliseconds. -/
def CACHE_TTL : Int := 5 * 60 * 1000

/-- The source loop of `fetchPronouns`: try each configured source in order;
a thrown error (`Except.error`) is caught and logged, a falsy or
`"unspecified"` reply falls through; the first other reply is cached with the
current timestamp and returned.  `attempt` abstracts the network-facing
`fetchFromSource` (identical control flow in both source variants). -/
def fetchPronounsGo (attempt : PronounSource → Except String String) (now : Int)
    (userId : String) : List PronounSource → PronounCache → String × PronounCache
  | [], cache => ("unspecified", cache)
  | s :: rest, cache =>
    match attempt s with
    | Except.ok pronouns =>
      if pronouns ≠ "" ∧ pronouns ≠ "unspecified" then
        (pronouns, setAssoc cache userId ⟨pronouns, now⟩)
      else fetchPronounsGo attempt now userId rest cache
    | Except.error _ => fetchPronounsGo attempt now userId rest cache

/-- Model of `fetchPronouns`: serve a fresh cache entry if one exists,
otherwise run the source loop.  The returned cache models the module-level
cache after the call. -/
def fetchPronouns (userId : String) (sources : List PronounSource)
    (attempt : PronounSource → Except String String) (now : Int)
    (cache : PronounCache) : String × PronounCache :=
  match cache.lookup userId with
  | some cached =>
    if now - cached.timestamp < CACHE_TTL then (cached.pronouns, cache)
    else fetchPronounsGo attempt now userId sources cache
  | none => fetchPronounsGo attempt now userId sources cache

end AutoCorrect

namespace Contextual

/-- The flat `PRONOUN_SETS` table of the contextual-parser variant. -/
def PRONOUN_SETS : List (String × List String) :=
  [("he/him", ["he", "him", "his", "himself"]),
   ("she/her", ["she", "her", "hers", "herself"]),
   ("they/them", ["they", "them", "their", "theirs", "themselves", "themself"]),
   ("it/its", ["it", "its", "itself"]),
   ("xe/xem", ["xe", "xem", "xyr", "xyrs", "xemself"]),
   ("ze/zir", ["ze", "zir", "zirs", "zirself"]),
   ("fae/faer", ["fae", "faer", "faers", "faerself"]),
   ("ey/em", ["ey", "em", "eir", "eirs", "emself"])]

/-- The four `PRONOUN_PATTERNS` regexes; optional-suffix forms such as
`hers?` and `themselves?` expand to their long alternative followed by the
short one, reproducing the engine's greedy choice. -/
def PRONOUN_PATTERNS : List RePat :=
  [{ alts := ["he", "she", "they", "xe", "ze", "fae", "ey", "it"].map String.data,
     ci := true, wbL := true, wbR := true },
   { alts := ["him", "her", "them", "xem", "zir", "faer", "em", "it"].map String.data,
     ci := true, wbL := true, wbR := true },
   { alts := ["his", "hers", "her", "theirs", "their", "xyrs", "xyr", "zirs", "zir",
              "faers", "faer", "eirs", "eir", "its"].map String.data,
     ci := true, wbL := true, wbR := true },
   { alts := ["himself", "herself", "themselves", "themselve", "xemself", "zirself",
              "faerself", "emself", "itself"].map String.data,
     ci := true, wbL := true, wbR := true }]

/-- The `POSITIVE_CONTEXT_PATTERNS` regexes (module-level, global flag). -/
def POSITIVE_CONTEXT_PATTERNS : List RePat :=
  [{ alts := ["person", "individual", "user", "member", "friend", "colleague"].map String.data,
     ci := true, wbL := true, wbR := true },
   { alts := ["said", "told", "mentioned", "thinks", "believes", "likes", "wants"].map String.data,
     ci := true, wbL := true, wbR := true },
   { alts := ["when he", "when she", "when they", "when xe", "when ze",
              "when fae", "when ey"].map String.data,
     ci := true, wbL := true, wbR := true }]

/-- The `NEGATIVE_CONTEXT_PATTERNS` regexes (module-level, global flag).  The
URL pattern has no trailing word-boundary assertion. -/
def NEGATIVE_CONTEXT_PATTERNS : List RePat :=
  [{ alts := ["movie", "song", "book", "game", "show", "video", "meme"].map String.data,
     ci := true, wbL := true, wbR := true },
   { alts := ["quote", "lyrics", "reference", "from"].map String.data,
     ci := true, wbL := true, wbR := true },
   { alts := ["https://".data, "http://".data], ci := true, wbL := true, wbR := false },
   { alts := ["character", "fictional", "story"].map String.data,
     ci := true, wbL := true, wbR := true }]

/-- The mutable `lastIndex` registers of the module-level context regexes, in
the order of `POSITIVE_CONTEXT_PATTERNS` and `NEGATIVE_CONTEXT_PATTERNS`.  (The
`PRONOUN_PATTERNS` registers always return to zero, because their `exec` loops
run to exhaustion, so they carry no state between calls.) -/
structure CtxState where
  posIdx : List Nat
  negIdx : List Nat
deriving DecidableEq

/-- Register state of a freshly loaded module: every `lastIndex` is zero. -/
def freshCtxState : CtxState := ⟨[0, 0, 0], [0, 0, 0, 0]⟩

/-- Model of `RegExp.prototype.test` on a regex with the global flag: search
from `lastIndex`; on success set `lastIndex` past the match, on failure reset
it to zero. -/
def testG (p : RePat) (s : List Char) (lastIndex : Nat) : Bool × Nat :=
  match findFrom p s lastIndex with
  | some il => (true, il.1 + il.2)
  | none => (false, 0)

/-- Run a list of stateful global regexes over `s` with their `lastIndex`
registers, returning the number of successful tests and the new registers. -/
def runTests (s : List Char) : List RePat → List Nat → Nat × List Nat
  | [], _ => (0, [])
  | _ :: _, [] => (0, [])
  | p :: ps, li :: lis =>
    let r := testG p s li
    let rest := runTests s ps lis
    ((if r.1 then 1 else 0) + rest.1, r.2 :: rest.2)

/-- The anchored sentence-start regex `^\s*\b(he|she|they|xe|ze|fae|ey)\b` of
`calculateContextConfidence` (no global flag, hence stateless): equivalent to
one of the listed subject words occurring right after the leading whitespace. -/
def startsWithSubjectPronoun (context : List Char) : Bool :=
  let i := (context.takeWhile jsWhitespace).length
  (altMatchAt { alts := ["he", "she", "they", "xe", "ze", "fae", "ey"].map String.data,
                ci := true, wbL := true, wbR := true } context i).isSome

/-- The dynamically built regex ``\bpronoun\s+(is|...|said)\b`` (no global
flag): the pronoun at a left word boundary, at least one whitespace character,
then a verb from the fixed list followed by a word boundary. -/
def pronounVerbTest (context : List Char) (pronoun : String) : Bool :=
  (List.range (context.length + 1)).any fun i =>
    boundaryBefore context i && literalAt true (strLower pronoun).data context i &&
      (let j := i + (strLower pronoun).data.length
       let m := ((jsSlice context j context.length).takeWhile jsWhitespace).length
       decide (1 ≤ m) &&
         (altMatchAt { alts := ["is", "was", "will", "can", "should", "would", "has",
                                "had", "goes", "went", "says", "said"].map String.data,
                       ci := true, wbL := false, wbR := true } context (j + m)).isSome)

/-- Model of `calculateContextConfidence`, threading the context-pattern
registers: base 50, +15 per positive pattern that tests true, −25 per negative
pattern, +10 for a sentence-start subject pronoun, +20 for pronoun-then-verb,
clamped to [0, 100]. -/
def calculateContextConfidence (context : List Char) (pronoun : String)
    (st : CtxState) : ℚ × CtxState :=
  let pos := runTests context POSITIVE_CONTEXT_PATTERNS st.posIdx
  let neg := runTests context NEGATIVE_CONTEXT_PATTERNS st.negIdx
  let c1 : ℚ := 50 + 15 * pos.1 - 25 * neg.1
  let c2 := if startsWithSubjectPronoun context then c1 + 10 else c1
  let c3 := if pronounVerbTest context pronoun then c2 + 20 else c2
  (max 0 (min 100 c3), ⟨pos.2, neg.2⟩)

/-- One entry of `PronounAnalysis.foundPronouns`. -/
structure FoundPronoun where
  pronoun : String
  position : Nat
  context : String
  confidence : ℚ
deriving DecidableEq

/-- One entry of `PronounAnalysis.mentionContext`. -/
structure MentionContext where
  userId : String
  surroundingText : String
  pronounsNearby : List String
deriving DecidableEq

/-- The `PronounAnalysis` record. -/
structure PronounAnalysis where
  foundPronouns : List FoundPronoun
  mentionContext : List MentionContext
deriving DecidableEq

/-- The `ParseOptions` record. -/
structure ParseOptions where
  skipQuotes : Bool := false
  contextAwareness : Bool := false
  minConfidence : Option ℚ := none

/-- The per-match body of the occurrence loop of `parseContextualPronouns`:
append one found pronoun, whose confidence is 50, or the context-scored value
when context awareness is on (threading the registers). -/
def scanStep (t : List Char) (awareness : Bool) (acc : List FoundPronoun × CtxState)
    (im : Nat × Nat) : List FoundPronoun × CtxState :=
  let position := im.1
  let len := im.2
  let contextStart := position - 50
  let contextEnd := min t.length (position + len + 50)
  let context := jsSlice t contextStart contextEnd
  let pronoun := String.mk ((jsSlice t position (position + len)).map Char.toLower)
  if awareness then
    let r := calculateContextConfidence context pronoun acc.2
    (acc.1 ++ [⟨pronoun, position, String.mk context, r.1⟩], r.2)
  else
    (acc.1 ++ [⟨pronoun, position, String.mk context, 50⟩], acc.2)

/-- The occurrence loop of `parseContextualPronouns` for one pronoun pattern. -/
def scanPattern (t : List Char) (p : RePat) (st : CtxState) (awareness : Bool) :
    List FoundPronoun × CtxState :=
  (allMatches p t).foldl (scanStep t awareness) ([], st)

/-- One step of the outer pattern loop of `parseContextualPronouns`: run one
pronoun pattern and append its occurrences, threading the registers. -/
def parseStep (t : List Char) (awareness : Bool) (acc : List FoundPronoun × CtxState)
    (p : RePat) : List FoundPronoun × CtxState :=
  let r := scanPattern t p acc.2 awareness
  (acc.1 ++ r.1, r.2)

/-- Model of `parseContextualPronouns`: collect scored pronoun occurrences for
each of the four patterns, then the per-mention nearby-pronoun summaries
(±200-character proximity, deduplicated). -/
def parseContextualPronouns (text : String) (options : ParseOptions) (st : CtxState) :
    PronounAnalysis × CtxState :=
  let t := if options.skipQuotes then stripIgnorable text.data else text.data
  let scanned := PRONOUN_PATTERNS.foldl
    (parseStep t options.contextAwareness) (([] : List FoundPronoun), st)
  let found := scanned.1
  let mentions := dedupFirst (extractMentionsAux t (t.length + 1) 0)
  let mcs := mentions.flatMap fun uid =>
    (allMatches (AutoCorrect.mentionPat uid) t).map fun m =>
      let mentionPos := m.1
      let surroundingText := jsSlice t (mentionPos - 100) (min t.length (mentionPos + m.2 + 100))
      let nearbyPronouns :=
        (found.filter fun p => natDist p.position mentionPos < 200).map FoundPronoun.pronoun
      ⟨uid, String.mk surroundingText, dedupFirst nearbyPronouns⟩
  ({ foundPronouns := found, mentionContext := mcs }, scanned.2)

/-- Model of `getPronounSet`: exact table lookup of the normalized label, then
the heuristic split on slashes, commas and whitespace. -/
def getPronounSet (pronouns : String) : Option (List String) :=
  let normalized := strTrim (strLower pronouns)
  match PRONOUN_SETS.lookup normalized with
  | some s => some s
  | none =>
    let parts := (splitSep normalized.data).filter fun p => 0 < p.length
    if 2 ≤ parts.length then
      match PRONOUN_SETS.find? (fun kv => parts.all fun part => kv.2.contains part) with
      | some kv => some kv.2
      | none => some parts
    else none

/-- The `CorrectionResult` record of the contextual variant (named apart from
the rewriter's record of the same source name). -/
structure CorrectionDecision where
  shouldCorrect : Bool
  confidence : ℚ
  incorrectPronouns : List String
  correctPronouns : String
  reasoning : String
deriving DecidableEq

/-- The options record of `shouldCorrect`. -/
structure ShouldCorrectOptions where
  requireConfidence : ℚ := 75
  contextAwareness : Bool := true

/-- The context-aware confidence blend of `shouldCorrect` before the `it`/`its`
penalty: start from 80 and cap it at 20 above the average confidence of the
analysis occurrences matching the incorrect pronouns, when there are any. -/
def blendedScore (analysis : PronounAnalysis) (incorrectPronouns : List String) : ℚ :=
  let relevantPronouns := analysis.foundPronouns.filter fun p =>
    incorrectPronouns.contains p.pronoun
  if 0 < relevantPronouns.length then
    min 80 ((relevantPronouns.map FoundPronoun.confidence).sum / relevantPronouns.length + 20)
  else 80

/-- Some incorrect pronoun is `it` or `its` (the false-positive penalty test). -/
def itPenaltyApplies (incorrectPronouns : List String) : Bool :=
  incorrectPronouns.any fun p => (["it", "its"] : List String).contains (strLower p)

/-- Model of `shouldCorrect`. -/
def shouldCorrect (analysis : PronounAnalysis) (userPronouns : String) (userId : String)
    (options : ShouldCorrectOptions) : CorrectionDecision :=
  if userPronouns = "unspecified" ∨ userPronouns = "any pronouns" then
    ⟨false, 0, [], userPronouns, "User pronouns are unspecified or accepts any pronouns"⟩
  else
    match getPronounSet userPronouns with
    | none => ⟨false, 0, [], userPronouns, "Could not parse user pronouns"⟩
    | some acceptedPronouns =>
      match analysis.mentionContext.find? fun ctx => ctx.userId = userId with
      | none => ⟨false, 0, [], userPronouns, "No pronouns found near user mention"⟩
      | some userContext =>
        if userContext.pronounsNearby.isEmpty then
          ⟨false, 0, [], userPronouns, "No pronouns found near user mention"⟩
        else
          let incorrectPronouns := userContext.pronounsNearby.filter fun pronoun =>
            !(acceptedPronouns.contains (strLower pronoun))
          if incorrectPronouns.isEmpty then
            ⟨false, 100, [], userPronouns, "All pronouns used are correct"⟩
          else
            let blended :=
              if options.contextAwareness then blendedScore analysis incorrectPronouns else 80
            let confidence :=
              if options.contextAwareness && itPenaltyApplies incorrectPronouns then
                blended - 15
              else blended
            ⟨options.requireConfidence ≤ confidence, confidence, incorrectPronouns, userPronouns,
             "Found incorrect pronouns: " ++ String.intercalate ", " incorrectPronouns ++
               ". User uses: " ++ userPronouns⟩

end Contextual

namespace Tracker

/-- One record of the `DuplicateTracker` store. -/
structure CorrectionRecord where
  channelId : String
  userId : String
  timestamp : Int
  messageHash : Option String
deriving DecidableEq

/-- The `DuplicateSettings` record. -/
structure DuplicateSettings where
  windowMinutes : Int
  maxCorrectionsPerWindow : Nat
  cleanupIntervalMinutes : Int

/-- The tracker's `corrections` map, keyed by `channelId:userId`. -/
abbrev TrackerState := List (String × List CorrectionRecord)

/-- Model of the private `getKey`. -/
def getKey (channelId userId : String) : String := channelId ++ ":" ++ userId

/-- Reduce an integer to the signed 32-bit range, as `| 0` coercions do. -/
def toInt32 (n : Int) : Int := (n + 2 ^ 31) % 2 ^ 32 - 2 ^ 31

/-- The integer value of the private `hashMessage` loop:
`hash = ((hash << 5) - hash) + charCode` followed by `hash = hash & hash`
(a signed 32-bit truncation). -/
def hashMessageInt (content : String) : Int :=
  content.data.foldl (fun h c => toInt32 (toInt32 (h * 32) - h + c.toNat)) 0

/-- A digit of `Number.prototype.toString(36)`. -/
def base36Digit (n : Nat) : Char :=
  if n < 10 then Char.ofNat (48 + n) else Char.ofNat (87 + n)

/-- Base-36 digits of a natural number, most significant first. -/
def natToBase36Aux : Nat → Nat → List Char
  | 0, _ => []
  | fuel + 1, n =>
    if n < 36 then [base36Digit n]
    else natToBase36Aux fuel (n / 36) ++ [base36Digit (n % 36)]

/-- Base-36 rendering of a natural number. -/
def natToBase36 (n : Nat) : String := String.mk (natToBase36Aux (n + 1) n)

/-- Model of `hashMessage`: the 32-bit hash rendered with `toString(36)`
(negative values carry a leading minus sign). -/
def hashMessage (content : String) : String :=
  let h := hashMessageInt content
  if h < 0 then "-" ++ natToBase36 h.natAbs else natToBase36 h.toNat

/-- The record list stored under a key (empty when the key is absent). -/
def recordsFor (st : TrackerState) (key : String) : List CorrectionRecord :=
  (st.lookup key).getD []

/-- The in-window records for a key at time `now`: those with
`now - timestamp < windowMinutes * 60 * 1000`. -/
def recentCorrections (settings : DuplicateSettings) (st : TrackerState)
    (channelId userId : String) (now : Int) : List CorrectionRecord :=
  (recordsFor st (getKey channelId userId)).filter fun r =>
    now - r.timestamp < settings.windowMinutes * 60 * 1000

/-- Model of `isDuplicate`: the in-window record count has reached the quota,
or a truthy message content is supplied and some in-window record carries the
identical fingerprint. -/
def isDuplicate (settings : DuplicateSettings) (st : TrackerState)
    (channelId userId : String) (messageContent : Option String) (now : Int) : Bool :=
  let recent := recentCorrections settings st channelId userId now
  if settings.maxCorrectionsPerWindow ≤ recent.length then true
  else
    match messageContent with
    | some content =>
      if content ≠ "" then
        (recent.find? fun r => r.messageHash = some (hashMessage content)).isSome
      else false
    | none => false

/-- Model of `addCorrection`: append a record timestamped `now`, fingerprinted
when a truthy message content is supplied. -/
def addCorrection (st : TrackerState) (channelId userId : String)
    (messageContent : Option String) (now : Int) : TrackerState :=
  let key := getKey channelId userId
  let newRecord : CorrectionRecord :=
    ⟨channelId, userId, now,
     match messageContent with
     | some c => if c ≠ "" then some (hashMessage c) else none
     | none => none⟩
  setAssoc st key (recordsFor st key ++ [newRecord])

end Tracker

/-- A source attempt that contributes nothing: it throws, or it reports
`"unspecified"` (or the falsy empty reply). -/
def contributesNothing (r : Except String String) : Prop :=
  match r with
  | Except.error _ => True
  | Except.ok v => v = "unspecified" ∨ v = ""

/-- The cache holds no fresh entry for the user: the entry is absent or its
timestamp has aged beyond the TTL. -/
def noFreshCacheEntry (cache : AutoCorrect.PronounCache) (userId : String) (now : Int) : Prop :=
  ∀ e, cache.lookup userId = some e → ¬(now - e.timestamp < AutoCorrect.CACHE_TTL)

/-- Claim C1: on the scenario-B input — the text `"Him and his team did great
work "` followed by a mention of a user whose expected label is `"they/them"`
— detection is claimed to produce exactly the two decisions him→them and
his→their, and rewriting the text `"Them and their team did great work "`
followed by the unchanged mention.  The code instead produces THREE decisions
(`his`→`their` is emitted twice, once for the possessive role and once for the
possessive-object role, because `"his"` fills both roles of the he/him set),
and applying the duplicated edit twice corrupts the rewritten text to
`"Them and theirir team did great work <@123>"`.  This theorem evaluates the
embedded code on that input, exhibiting the divergence. -/
theorem claim1_scenarioB_code_divergence :
    AutoCorrect.detectPronounMismatches "Him and his team did great work <@123>"
        "123" "they/them" {} =
      [⟨"him", "them", 0, "Him and his team did gr", 97⟩,
       ⟨"his", "their", 8, "Him and his team did great work", 98⟩,
       ⟨"his", "their", 8, "Him and his team did great work", 98⟩] ∧
    (AutoCorrect.correctPronouns "Him and his team did great work <@123>"
        (AutoCorrect.detectPronounMismatches "Him and his team did great work <@123>"
          "123" "they/them" {})).1 =
      ⟨"Them and theirir team did great work <@123>",
       [⟨"his", "their", 8⟩, ⟨"his", "their", 8⟩, ⟨"Him", "Them", 0⟩]⟩ := by
  with_unfolding_all decide

/-- Claim C2: the context scan is claimed deterministic — identical text and
options must yield identical occurrence lists, with no hidden state carried
between calls.  The module-level context regexes carry the global flag, and
`calculateContextConfidence` probes them with `test`, which advances their
persistent `lastIndex`; a second identical call therefore misses the
`"person"` context cue and scores 50 instead of 65.  This theorem evaluates
two consecutive calls on the text `"person he"` with context awareness on,
starting from the fresh register state, and exhibits the differing results. -/
theorem claim2_scan_hidden_state_divergence :
    (Contextual.parseContextualPronouns "person he" ⟨false, true, none⟩
        Contextual.freshCtxState).1 ≠
      (Contextual.parseContextualPronouns "person he" ⟨false, true, none⟩
        (Contextual.parseContextualPronouns "person he" ⟨false, true, none⟩
          Contextual.freshCtxState).2).1 ∧
    ((Contextual.parseContextualPronouns "person he" ⟨false, true, none⟩
        Contextual.freshCtxState).1.foundPronouns.map Contextual.FoundPronoun.confidence
      = [65]) ∧
    ((Contextual.parseContextualPronouns "person he" ⟨false, true, none⟩
        (Contextual.parseContextualPronouns "person he" ⟨false, true, none⟩
          Contextual.freshCtxState).2).1.foundPronouns.map Contextual.FoundPronoun.confidence
      = [50]) := by
  with_unfolding_all decide

/-- Claim C3, counterexample: confidences are claimed to lie in [0, 100], but
`detectPronounMismatches` adds its +15 referential-verb bonus after the
proximity score (here 99.4) without any clamp, producing the mismatch
confidence 114 on the input `"he is <@1>"` with expected label `"she/her"`. -/
theorem claim3_confidence_exceeds_100 :
    (AutoCorrect.detectPronounMismatches "he is <@1>" "1" "she/her" {}).map
        AutoCorrect.PronounMismatch.confidence = [114] ∧
    (100 : Int) < 114 := by
  with_unfolding_all decide

/-- Claim C5, counterexample: the rewriter is claimed never to mutate its
inputs, but `correction.mismatches.sort(...)` sorts the caller's array in
place; after a call with an ascending two-decision list the caller's array is
in descending order, differing from what was passed in. -/
theorem claim5_decision_list_mutated :
    (AutoCorrect.correctPronouns "he x him"
        [⟨"he", "she", 0, "", 80⟩, ⟨"him", "her", 5, "", 80⟩]).2 ≠
      [⟨"he", "she", 0, "", 80⟩, ⟨"him", "her", 5, "", 80⟩] := by
  with_unfolding_all decide

/-- Claim C8: case preservation evaluated on the original matched span — an
all-uppercase span renders the replacement all-uppercase; otherwise an
uppercase first character renders it title-case (first character upper, rest
lower); otherwise it renders fully lowercase. -/
theorem claim8_preserveCase_policy (original replacement : String) :
    (original = strUpper original →
      AutoCorrect.preserveCase original replacement = strUpper replacement) ∧
    (original ≠ strUpper original → AutoCorrect.firstCharUpper original = true →
      AutoCorrect.preserveCase original replacement = AutoCorrect.titleCase replacement) ∧
    (original ≠ strUpper original → AutoCorrect.firstCharUpper original = false →
      AutoCorrect.preserveCase original replacement = strLower replacement) := by
  refine ⟨fun h => ?_, fun h hf => ?_, fun h hf => ?_⟩
  · unfold AutoCorrect.preserveCase
    rw [if_pos h]
  · unfold AutoCorrect.preserveCase
    rw [if_neg h]
    simp [hf]
  · unfold AutoCorrect.preserveCase
    rw [if_neg h]
    simp [hf]

/-- Witness for C8: the three policy branches at the spans `"HE"`, `"He"` and
`"he"` with replacement word `"they"`. -/
theorem claim8_preserveCase_policy_witness :
    AutoCorrect.preserveCase "HE" "they" = strUpper "they" ∧
    AutoCorrect.preserveCase "He" "they" = AutoCorrect.titleCase "they" ∧
    AutoCorrect.preserveCase "he" "they" = strLower "they" :=
  ⟨(claim8_preserveCase_policy "HE" "they").1 (by decide),
   (claim8_preserveCase_policy "He" "they").2.1 (by decide) (by decide),
   (claim8_preserveCase_policy "he" "they").2.2 (by decide) (by decide)⟩

/-- Claim C4: an expected label of `"unspecified"` or the accepts-any sentinel
`"any pronouns"` short-circuits both resolvers — `detectPronounMismatches`
returns no decision and `shouldCorrect` declines with an empty incorrect list,
regardless of the text, the analysis or the confidence configuration. -/
theorem claim4_unspecified_short_circuit (content userId label : String)
    (dopts : AutoCorrect.DetectionOptions) (analysis : Contextual.PronounAnalysis)
    (uid : String) (sopts : Contextual.ShouldCorrectOptions)
    (h : label = "unspecified" ∨ label = "any pronouns") :
    AutoCorrect.detectPronounMismatches content userId label dopts = [] ∧
    (Contextual.shouldCorrect analysis label uid sopts).shouldCorrect = false ∧
    (Contextual.shouldCorrect analysis label uid sopts).incorrectPronouns = [] := by
  refine ⟨?_, ?_, ?_⟩ <;>
    · first
      | (unfold AutoCorrect.detectPronounMismatches; rw [if_pos h])
      | (unfold Contextual.shouldCorrect; rw [if_pos h])

/-- Witness for C4: the label `"unspecified"` on a text that names wrong
pronouns right next to the mention. -/
theorem claim4_unspecified_short_circuit_witness :
    AutoCorrect.detectPronounMismatches "he said hi <@1>" "1" "unspecified" {} = [] ∧
    (Contextual.shouldCorrect ⟨[], [⟨"1", "", ["he"]⟩]⟩ "unspecified" "1" {}).shouldCorrect
      = false ∧
    (Contextual.shouldCorrect ⟨[], [⟨"1", "", ["he"]⟩]⟩ "unspecified" "1" {}).incorrectPronouns
      = [] :=
  claim4_unspecified_short_circuit "he said hi <@1>" "1" "unspecified" {}
    ⟨[], [⟨"1", "", ["he"]⟩]⟩ "1" {} (Or.inl rfl)

/-- A lookup over an association list whose keys all differ from the query
returns nothing. -/
theorem lookup_eq_none_of_forall_ne {β : Type} (k : String) :
    ∀ l : List (String × β), (∀ p ∈ l, p.1 ≠ k) → l.lookup k = none
  | [], _ => rfl
  | (a, b) :: es, h => by
    have ha : (k == a) = false :=
      beq_eq_false_iff_ne.mpr fun e => h (a, b) (List.mem_cons_self _ _) (by simp [e])
    simp only [List.lookup, ha]
    exact lookup_eq_none_of_forall_ne k es fun p hp => h p (List.mem_cons_of_mem _ hp)

/-- Claim C10: an expected label that is not case-insensitively one of the four
table keys (`"he/him"`, `"she/her"`, `"they/them"`, `"it/its"`) — for example
the compound `"he/they"` — makes the mention-proximity detector return zero
decisions for any text; no heuristic label splitting happens on this path. -/
theorem claim10_unknown_label_no_decisions (content userId label : String)
    (dopts : AutoCorrect.DetectionOptions)
    (h : strLower label ∉ (["he/him", "she/her", "they/them", "it/its"] : List String)) :
    AutoCorrect.detectPronounMismatches content userId label dopts = [] := by
  have hl : AutoCorrect.PRONOUN_SETS.lookup (strLower label) = none := by
    apply lookup_eq_none_of_forall_ne
    intro p hp he
    apply h
    rw [← he]
    fin_cases hp <;> decide
  unfold AutoCorrect.detectPronounMismatches
  by_cases h0 : label = "unspecified" ∨ label = "any pronouns"
  · rw [if_pos h0]
  · rw [if_neg h0]
    simp only [hl]

/-- Witness for C10: the compound label `"he/they"` yields no decision even on
a text whose pronoun sits right next to the mention. -/
theorem claim10_unknown_label_no_decisions_witness :
    AutoCorrect.detectPronounMismatches "she is great <@1>" "1" "he/they" {} = [] :=
  claim10_unknown_label_no_decisions "she is great <@1>" "1" "he/they" {} (by decide)

/-- Inserting into the descending-position order permutes consing. -/
theorem insertByPosDesc_perm (m : AutoCorrect.PronounMismatch) :
    ∀ l : List AutoCorrect.PronounMismatch,
      (AutoCorrect.insertByPosDesc m l).Perm (m :: l)
  | [] => List.Perm.refl _
  | x :: xs => by
    unfold AutoCorrect.insertByPosDesc
    by_cases hx : x.position ≤ m.position
    · rw [if_pos hx]
    · rw [if_neg hx]
      exact ((insertByPosDesc_perm m xs).cons x).trans (List.Perm.swap _ _ _)

/-- The stable descending sort permutes its input. -/
theorem sortByPosDesc_perm :
    ∀ l : List AutoCorrect.PronounMismatch, (AutoCorrect.sortByPosDesc l).Perm l
  | [] => List.Perm.refl _
  | x :: xs =>
    (insertByPosDesc_perm x (AutoCorrect.sortByPosDesc xs)).trans
      ((sortByPosDesc_perm xs).cons x)

/-- Claim C5, amended: the rewriter mutates neither the original text nor the
individual decision records, but `correction.mismatches.sort(...)` reorders
the caller's decision array in place — after the call the array holds exactly
the stable descending-by-position sort of its previous contents, a permutation
of the original list. -/
theorem claim5_rewriter_array_effect (content : String)
    (mismatches : List AutoCorrect.PronounMismatch) :
    (AutoCorrect.correctPronouns content mismatches).2 =
        AutoCorrect.sortByPosDesc mismatches ∧
    (AutoCorrect.correctPronouns content mismatches).2.Perm mismatches :=
  ⟨rfl, sortByPosDesc_perm mismatches⟩

/-- Claim C6: when the cache holds no fresh entry and every configured source
fails or returns `"unspecified"`, resolution returns `"unspecified"` and the
cache is left exactly as it was — no entry is written, so a later call
re-attempts resolution.  Per-source failures are caught inside the loop (the
model is total, so no error propagates to the caller). -/
theorem claim6_all_sources_fail_no_cache (userId : String)
    (sources : List AutoCorrect.PronounSource)
    (attempt : AutoCorrect.PronounSource → Except String String) (now : Int)
    (cache : AutoCorrect.PronounCache)
    (hmiss : noFreshCacheEntry cache userId now)
    (hall : ∀ s ∈ sources, contributesNothing (attempt s)) :
    AutoCorrect.fetchPronouns userId sources attempt now cache = ("unspecified", cache) := by
  have hgo : ∀ ss : List AutoCorrect.PronounSource,
      (∀ s ∈ ss, contributesNothing (attempt s)) →
      AutoCorrect.fetchPronounsGo attempt now userId ss cache = ("unspecified", cache) := by
    intro ss
    induction ss with
    | nil => intro _; rfl
    | cons s rest ih =>
      intro hss
      have hrest : ∀ x ∈ rest, contributesNothing (attempt x) :=
        fun x hx => hss x (List.mem_cons_of_mem _ hx)
      cases hA : attempt s with
      | error e =>
        simp only [AutoCorrect.fetchPronounsGo, hA]
        exact ih hrest
      | ok v =>
        have hv : v = "unspecified" ∨ v = "" := by
          have hn := hss s (List.mem_cons_self _ _)
          rw [hA] at hn
          exact hn
        simp only [AutoCorrect.fetchPronounsGo, hA]
        rw [if_neg fun hcv => hv.elim hcv.2 hcv.1]
        exact ih hrest
  cases hc : cache.lookup userId with
  | none =>
    simp only [AutoCorrect.fetchPronouns, hc]
    exact hgo sources hall
  | some e =>
    simp only [AutoCorrect.fetchPronouns, hc]
    rw [if_neg (hmiss e hc)]
    exact hgo sources hall

/-- Witness for C6: a stale cache entry, a throwing directory source and an
`"unspecified"` custom source leave the cache untouched. -/
theorem claim6_all_sources_fail_no_cache_witness :
    AutoCorrect.fetchPronouns "77"
        [AutoCorrect.PronounSource.pronoundb, AutoCorrect.PronounSource.custom]
        (fun s => match s with
          | AutoCorrect.PronounSource.pronoundb => Except.error "network error"
          | _ => Except.ok "unspecified")
        400000 [("77", ⟨"she/her", 0⟩)]
      = ("unspecified", [("77", ⟨"she/her", 0⟩)]) := by
  apply claim6_all_sources_fail_no_cache
  · intro e he
    rw [show (([("77", (⟨"she/her", 0⟩ : AutoCorrect.CacheEntry))] :
        AutoCorrect.PronounCache).lookup "77") = some ⟨"she/her", 0⟩ from rfl] at he
    cases he
    decide
  · intro s hs
    fin_cases hs <;> simp [contributesNothing]

/-- Claim C9: `isDuplicate` holds exactly when the in-window record count for
the key has reached `maxPerWindow`, or a (truthy) message content is supplied
and an in-window record carries the identical fingerprint; in particular, with
`maxPerWindow = 2` a third attempt for the same key inside the window is
suppressed, while an attempt a full window after the records were made is
allowed again. -/
theorem claim9_isDuplicate_characterization :
    (∀ (settings : Tracker.DuplicateSettings) (st : Tracker.TrackerState)
        (channelId userId : String) (messageContent : Option String) (now : Int),
      Tracker.isDuplicate settings st channelId userId messageContent now = true ↔
        (settings.maxCorrectionsPerWindow ≤
            (Tracker.recentCorrections settings st channelId userId now).length ∨
          ∃ c, messageContent = some c ∧ c ≠ "" ∧
            ∃ r ∈ Tracker.recentCorrections settings st channelId userId now,
              r.messageHash = some (Tracker.hashMessage c))) ∧
    Tracker.isDuplicate ⟨60, 2, 30⟩
        (Tracker.addCorrection (Tracker.addCorrection [] "chan" "user" none 0)
          "chan" "user" none 0) "chan" "user" none 0 = true ∧
    Tracker.isDuplicate ⟨60, 2, 30⟩
        (Tracker.addCorrection (Tracker.addCorrection [] "chan" "user" none 0)
          "chan" "user" none 0) "chan" "user" none 3600000 = false := by
  refine ⟨?_, by decide, by decide⟩
  intro settings st channelId userId messageContent now
  unfold Tracker.isDuplicate
  by_cases hq : settings.maxCorrectionsPerWindow ≤
      (Tracker.recentCorrections settings st channelId userId now).length
  · simp [hq]
  · simp only [if_neg hq]
    cases messageContent with
    | none => simp [hq]
    | some c =>
      by_cases hc : c = ""
      · subst hc
        simp [hq]
      · simp only [ne_eq, hc, not_false_eq_true, if_true, if_neg hc]
        rw [List.find?_isSome]
        simp [hq, hc]

/-- Claim C7, counterexample: the −15 penalty for `it`/`its` mismatch
candidates is claimed to apply on every scoring path, but
`detectPronounMismatches` scores an `"it"` candidate exactly like the
otherwise-identical `"he"` candidate: on `"it <@1>"` versus `"he <@1>"` with
expected label `"she/her"`, both score 100, not 15 apart. -/
theorem claim7_no_penalty_in_detection :
    (AutoCorrect.detectPronounMismatches "it <@1>" "1" "she/her" {}).map
        AutoCorrect.PronounMismatch.confidence = [100, 100] ∧
    (AutoCorrect.detectPronounMismatches "he <@1>" "1" "she/her" {}).map
        AutoCorrect.PronounMismatch.confidence = [100] := by
  with_unfolding_all decide

/-- The clamp ending `calculateContextConfidence` keeps every context-aware
occurrence confidence inside [0, 100]. -/
theorem calculateContextConfidence_bounds (context : List Char) (pronoun : String)
    (st : Contextual.CtxState) :
    0 ≤ (Contextual.calculateContextConfidence context pronoun st).1 ∧
    (Contextual.calculateContextConfidence context pronoun st).1 ≤ 100 := by
  unfold Contextual.calculateContextConfidence
  exact ⟨le_max_left _ _, max_le (by norm_num) (min_le_left _ _)⟩

/-- One scan step only appends occurrences whose confidence is 50 or a clamped
context score, so the [0, 100] bound is preserved. -/
theorem scanStep_mem_bounds (t : List Char) (aw : Bool)
    (acc : List Contextual.FoundPronoun × Contextual.CtxState) (im : Nat × Nat)
    (fp : Contextual.FoundPronoun)
    (hacc : ∀ x ∈ acc.1, 0 ≤ x.confidence ∧ x.confidence ≤ 100)
    (h : fp ∈ (Contextual.scanStep t aw acc im).1) :
    0 ≤ fp.confidence ∧ fp.confidence ≤ 100 := by
  cases aw with
  | false =>
    simp only [Contextual.scanStep, Bool.false_eq_true, if_false] at h
    rcases List.mem_append.mp h with h | h
    · exact hacc _ h
    · cases List.mem_singleton.mp h
      exact ⟨by norm_num, by norm_num⟩
  | true =>
    simp only [Contextual.scanStep, if_true] at h
    rcases List.mem_append.mp h with h | h
    · exact hacc _ h
    · cases List.mem_singleton.mp h
      exact calculateContextConfidence_bounds _ _ _

/-- The occurrence fold preserves the confidence bound. -/
theorem foldl_scanStep_mem_bounds (t : List Char) (aw : Bool) :
    ∀ (ms : List (Nat × Nat)) (acc : List Contextual.FoundPronoun × Contextual.CtxState)
      (fp : Contextual.FoundPronoun),
      (∀ x ∈ acc.1, 0 ≤ x.confidence ∧ x.confidence ≤ 100) →
      fp ∈ (ms.foldl (Contextual.scanStep t aw) acc).1 →
      0 ≤ fp.confidence ∧ fp.confidence ≤ 100
  | [], _, fp, hacc, h => hacc fp h
  | im :: ms, acc, fp, hacc, h =>
    foldl_scanStep_mem_bounds t aw ms _ fp
      (fun x hx => scanStep_mem_bounds t aw acc im x hacc hx) h

/-- Every occurrence produced by a single pattern scan has confidence in
[0, 100]. -/
theorem scanPattern_mem_bounds (t : List Char) (p : RePat) (st : Contextual.CtxState)
    (aw : Bool) (fp : Contextual.FoundPronoun)
    (h : fp ∈ (Contextual.scanPattern t p st aw).1) :
    0 ≤ fp.confidence ∧ fp.confidence ≤ 100 :=
  foldl_scanStep_mem_bounds t aw _ _ fp (fun x hx => absurd hx (List.not_mem_nil x)) h

/-- One outer pattern step preserves the confidence bound. -/
theorem parseStep_mem_bounds (t : List Char) (aw : Bool)
    (acc : List Contextual.FoundPronoun × Contextual.CtxState) (p : RePat)
    (fp : Contextual.FoundPronoun)
    (hacc : ∀ x ∈ acc.1, 0 ≤ x.confidence ∧ x.confidence ≤ 100)
    (h : fp ∈ (Contextual.parseStep t aw acc p).1) :
    0 ≤ fp.confidence ∧ fp.confidence ≤ 100 := by
  simp only [Contextual.parseStep] at h
  rcases List.mem_append.mp h with h | h
  · exact hacc _ h
  · exact scanPattern_mem_bounds t p acc.2 aw fp h

/-- The pattern fold preserves the confidence bound. -/
theorem foldl_parseStep_mem_bounds (t : List Char) (aw : Bool) :
    ∀ (ps : List RePat) (acc : List Contextual.FoundPronoun × Contextual.CtxState)
      (fp : Contextual.FoundPronoun),
      (∀ x ∈ acc.1, 0 ≤ x.confidence ∧ x.confidence ≤ 100) →
      fp ∈ (ps.foldl (Contextual.parseStep t aw) acc).1 →
      0 ≤ fp.confidence ∧ fp.confidence ≤ 100
  | [], _, fp, hacc, h => hacc fp h
  | p :: ps, acc, fp, hacc, h =>
    foldl_parseStep_mem_bounds t aw ps _ fp
      (fun x hx => parseStep_mem_bounds t aw acc p x hacc hx) h

/-- Every occurrence reported by the context scan has confidence in [0, 100]. -/
theorem parse_found_bounds (text : String) (popts : Contextual.ParseOptions)
    (st : Contextual.CtxState) (fp : Contextual.FoundPronoun)
    (h : fp ∈ (Contextual.parseContextualPronouns text popts st).1.foundPronouns) :
    0 ≤ fp.confidence ∧ fp.confidence ≤ 100 := by
  simp only [Contextual.parseContextualPronouns] at h
  exact foldl_parseStep_mem_bounds _ _ _ _ fp (fun x hx => absurd hx (List.not_mem_nil x)) h

/-- Rounding maps [0, 115] into the integer range [0, 115]. -/
theorem jsRound_bounds (q : ℚ) (h1 : 0 ≤ q) (h2 : q ≤ 115) :
    0 ≤ jsRound q ∧ jsRound q ≤ 115 := by
  unfold jsRound
  constructor
  · exact Int.le_floor.mpr (by push_cast; linarith)
  · have h3 := Int.floor_lt.mpr (show (q + 1/2 : ℚ) < ((116 : Int) : ℚ) by push_cast; linarith)
    omega

/-- The candidate score is at least the 60 floor and at most 100 plus the 15
verb bonus. -/
theorem candidateConfidence_bounds (d : Nat) (s : List Char) :
    (60 : ℚ) ≤ AutoCorrect.candidateConfidence d s ∧
    AutoCorrect.candidateConfidence d s ≤ 115 := by
  unfold AutoCorrect.candidateConfidence
  have h0 : (0 : ℚ) ≤ (d : ℚ) / 10 := by positivity
  have hu : (max 60 (100 - (d : ℚ) / 10)) ≤ 100 := max_le (by norm_num) (by linarith)
  have hl : (60 : ℚ) ≤ max 60 (100 - (d : ℚ) / 10) := le_max_left _ _
  split <;> constructor <;> linarith

/-- Every emitted mismatch decision carries a rounded confidence in [0, 115]. -/
theorem detectCandidate_bounds (options : AutoCorrect.DetectionOptions)
    (correctSet : AutoCorrect.PronounSet) (contextArea : List Char)
    (searchStart mentionPos : Nat) (im : Nat × Nat) (m : AutoCorrect.PronounMismatch)
    (h : AutoCorrect.detectCandidate options correctSet contextArea searchStart mentionPos im
      = some m) :
    0 ≤ m.confidence ∧ m.confidence ≤ 115 := by
  simp only [AutoCorrect.detectCandidate] at h
  split at h
  · cases h
    have hb := candidateConfidence_bounds (natDist (searchStart + im.1) mentionPos)
      (jsSlice contextArea (im.1 - 20) (min contextArea.length (im.1 + im.2 + 20)))
    exact jsRound_bounds _ (le_trans (by norm_num) hb.1) hb.2
  · cases h

/-- The per-role loop only emits bounded decisions. -/
theorem detectRole_mem_bounds (options : AutoCorrect.DetectionOptions)
    (correctSet : AutoCorrect.PronounSet) (contextArea : List Char)
    (searchStart mentionPos : Nat) (rg : String × (AutoCorrect.PronounSet → List String))
    (m : AutoCorrect.PronounMismatch)
    (h : m ∈ AutoCorrect.detectRole options correctSet contextArea searchStart mentionPos rg) :
    0 ≤ m.confidence ∧ m.confidence ≤ 115 := by
  simp only [AutoCorrect.detectRole] at h
  split at h
  · exact absurd h (List.not_mem_nil m)
  · obtain ⟨im, _, him⟩ := List.mem_filterMap.mp h
    exact detectCandidate_bounds _ _ _ _ _ _ _ him

/-- The per-mention loop only emits bounded decisions. -/
theorem detectMention_mem_bounds (options : AutoCorrect.DetectionOptions)
    (correctSet : AutoCorrect.PronounSet) (processed : List Char) (mm : Nat × Nat)
    (m : AutoCorrect.PronounMismatch)
    (h : m ∈ AutoCorrect.detectMention options correctSet processed mm) :
    0 ≤ m.confidence ∧ m.confidence ≤ 115 := by
  simp only [AutoCorrect.detectMention] at h
  obtain ⟨rg, _, hrg⟩ := List.mem_flatMap.mp h
  exact detectRole_mem_bounds _ _ _ _ _ _ _ hrg

/-- Every decision of `detectPronounMismatches` has confidence in [0, 115]. -/
theorem detect_mem_bounds (content userId label : String)
    (dopts : AutoCorrect.DetectionOptions) (m : AutoCorrect.PronounMismatch)
    (h : m ∈ AutoCorrect.detectPronounMismatches content userId label dopts) :
    0 ≤ m.confidence ∧ m.confidence ≤ 115 := by
  simp only [AutoCorrect.detectPronounMismatches] at h
  split at h
  · exact absurd h (List.not_mem_nil m)
  · split at h
    · exact absurd h (List.not_mem_nil m)
    · obtain ⟨mm, _, hmm⟩ := List.mem_flatMap.mp h
      exact detectMention_mem_bounds _ _ _ _ _ hmm

/-- Claim C3, amended: the [0, 100] invariant holds for the confidences of
scanner occurrences (clamped in `calculateContextConfidence`, or the base
value 50), but mismatch decisions from `detectPronounMismatches` are only
bounded by [0, 115]: the +15 referential-verb bonus is added after the
proximity score without a final clamp, and the value 114 is actually reached
(see the counterexample). -/
theorem claim3_confidence_bounds (text : String) (popts : Contextual.ParseOptions)
    (st : Contextual.CtxState) (content userId label : String)
    (dopts : AutoCorrect.DetectionOptions) (fp : Contextual.FoundPronoun)
    (m : AutoCorrect.PronounMismatch)
    (hfp : fp ∈ (Contextual.parseContextualPronouns text popts st).1.foundPronouns)
    (hm : m ∈ AutoCorrect.detectPronounMismatches content userId label dopts) :
    (0 ≤ fp.confidence ∧ fp.confidence ≤ 100) ∧
    (0 ≤ m.confidence ∧ m.confidence ≤ 115) :=
  ⟨parse_found_bounds text popts st fp hfp,
   detect_mem_bounds content userId label dopts m hm⟩

/-- Witness for C3: the bounds instantiated at the concrete occurrence of
confidence 65 and the concrete decision of confidence 114. -/
theorem claim3_confidence_bounds_witness :
    (0 ≤ (65 : ℚ) ∧ (65 : ℚ) ≤ 100) ∧ (0 ≤ (114 : Int) ∧ (114 : Int) ≤ 115) :=
  claim3_confidence_bounds "person he" ⟨false, true, none⟩ Contextual.freshCtxState
    "he is <@1>" "1" "she/her" {} ⟨"he", 7, "person he", 65⟩
    ⟨"he", "she", 0, "he is <@1>", 114⟩
    (by with_unfolding_all decide) (by with_unfolding_all decide)

/-- Claim C7, amended: the −15 penalty for `it`/`its` exists only in
`shouldCorrect` and only when context awareness is enabled: on that path, when
the computation reaches the scoring step, the returned confidence is exactly
the blended score minus 15 when an `it`/`its` candidate is present, and the
unreduced blended score otherwise; `detectPronounMismatches` applies no such
penalty (see the counterexample). -/
theorem claim7_penalty_only_in_shouldCorrect (analysis : Contextual.PronounAnalysis)
    (label userId : String) (opts : Contextual.ShouldCorrectOptions)
    (h0 : ¬(label = "unspecified" ∨ label = "any pronouns"))
    (acceptedPronouns : List String)
    (hset : Contextual.getPronounSet label = some acceptedPronouns)
    (userContext : Contextual.MentionContext)
    (hctx : analysis.mentionContext.find? (fun ctx => ctx.userId = userId) = some userContext)
    (hne : userContext.pronounsNearby.isEmpty = false)
    (hinc : (userContext.pronounsNearby.filter fun pronoun =>
        !(acceptedPronouns.contains (strLower pronoun))).isEmpty = false)
    (haw : opts.contextAwareness = true) :
    (Contextual.shouldCorrect analysis label userId opts).confidence =
      Contextual.blendedScore analysis
          (userContext.pronounsNearby.filter fun pronoun =>
            !(acceptedPronouns.contains (strLower pronoun))) -
        (if Contextual.itPenaltyApplies
            (userContext.pronounsNearby.filter fun pronoun =>
              !(acceptedPronouns.contains (strLower pronoun))) then (15 : ℚ) else 0) := by
  simp only [Contextual.shouldCorrect, if_neg h0, hset, hctx, hne, hinc, haw,
    Bool.false_eq_true, if_false, true_and, Bool.true_and]
  split
  · simp
  · simp

/-- Witness for C7: an analysis whose only nearby pronoun for the user is
`"it"` under the label `"she/her"` scores 80 − 15 = 65. -/
theorem claim7_penalty_only_in_shouldCorrect_witness :
    (Contextual.shouldCorrect ⟨[], [⟨"1", "", ["it"]⟩]⟩ "she/her" "1" ⟨75, true⟩).confidence
      = 65 := by
  have h := claim7_penalty_only_in_shouldCorrect ⟨[], [⟨"1", "", ["it"]⟩]⟩ "she/her" "1"
    ⟨75, true⟩ (by decide) ["she", "her", "hers", "herself"] (by with_unfolding_all decide)
    ⟨"1", "", ["it"]⟩ (by with_unfolding_all decide) (by decide) (by with_unfolding_all decide)
    rfl
  rw [h]
  with_unfolding_all decide
